import Mathlib

/-!
Verification of the EasyR1 video-grounding reward scorer and ground-truth resolver.

Shallow embedding of `verl/utils/reward_score/video_grounding.py`
(`video_grounding`, `check_format`, `evaluate_grounding`, `evaluate_sampling_rate`)
and of `video_grounding/dataset_prep.py` (`compute_layer_segment`).

Strings are modelled as `List Char`; Python real arithmetic is modelled over `ℚ`
(the scorer's arithmetic is exact over the rationals, which is what the
documented decimal constants denote).
-/

namespace VideoGrounding

/-- Characters stripped by Python's `str.strip()` (ASCII whitespace). -/
def isWs (c : Char) : Bool :=
  c = ' ' || c = '\t' || c = '\n' || c = '\r' || c = '\x0b' || c = '\x0c'

/-- Python `str.strip()` on a character list. -/
def trimChars (cs : List Char) : List Char :=
  ((cs.dropWhile isWs).reverse.dropWhile isWs).reverse

/-- `p` is a leading segment of `cs`. -/
def isPrefixCh : List Char → List Char → Bool
  | [], _ => true
  | _ :: _, [] => false
  | p :: ps, c :: cs => p = c && isPrefixCh ps cs

/-- Python `needle in hay` (substring containment). -/
def containsSub (needle : List Char) : List Char → Bool
  | [] => isPrefixCh needle []
  | c :: cs => isPrefixCh needle (c :: cs) || containsSub needle cs

/-- Drop `p` from the front of `cs` when it is a leading segment. -/
def dropPrefixCh : List Char → List Char → Option (List Char)
  | [], cs => some cs
  | _ :: _, [] => none
  | p :: ps, c :: cs => if p = c then dropPrefixCh ps cs else none

/-- Content before the first occurrence of `close` in the list, when any. -/
def beforeClose (close : List Char) : List Char → Option (List Char)
  | [] => none
  | c :: cs =>
    if isPrefixCh close (c :: cs) then some []
    else (beforeClose close cs).map (c :: ·)

/-- The opening marker `<think>`. -/
def thinkOpen : List Char := "<think>".toList

/-- The closing marker `</think>`. -/
def thinkClose : List Char := "</think>".toList

/-- The opening marker `<grounding>`. -/
def groundOpen : List Char := "<grounding>".toList

/-- The closing marker `</grounding>`. -/
def groundClose : List Char := "</grounding>".toList

/-- First match of the regex `<think>(.*?)</think>` with `re.DOTALL`: at the
leftmost position where `<think>` occurs with `</think>` somewhere after it,
capture everything up to the first subsequent `</think>`. -/
def findThink : List Char → Option (List Char)
  | [] => none
  | c :: cs =>
    match dropPrefixCh thinkOpen (c :: cs) with
    | some rest =>
      match beforeClose thinkClose rest with
      | some content => some content
      | none => findThink cs
    | none => findThink cs

/-- First match of the regex `<grounding>([^<]+)</grounding>`: at a given start,
`[^<]+` greedily takes the (nonempty) run of non-`<` characters after the
opening tag, and the match succeeds only when `</grounding>` follows that run
directly; otherwise the scan advances one character. -/
def findGrounding : List Char → Option (List Char)
  | [] => none
  | c :: cs =>
    match dropPrefixCh groundOpen (c :: cs) with
    | some rest =>
      let run := rest.takeWhile (· ≠ '<')
      if run ≠ [] ∧ isPrefixCh groundClose (rest.drop run.length) then some run
      else findGrounding cs
    | none => findGrounding cs

/-- Python `s.split(',')` (keeps empty pieces, `"" ↦ [""]`). -/
def splitOnComma : List Char → List (List Char)
  | [] => [[]]
  | c :: cs =>
    if c = ',' then [] :: splitOnComma cs
    else
      match splitOnComma cs with
      | [] => [[c]]
      | h :: t => (c :: h) :: t

/-- `[p.strip() for p in s.split(',')]`. -/
def splitParts (cs : List Char) : List (List Char) :=
  (splitOnComma cs).map trimChars

/-- Numeric value of a decimal digit character. -/
def digitVal (c : Char) : ℕ := c.toNat - 48

/-- Accumulate decimal digits, allowing single underscores between digits
(Python integer-literal syntax accepted by `int`). -/
def parseDigitsAux : ℕ → List Char → Option ℕ
  | acc, [] => some acc
  | acc, c :: cs =>
    if c.isDigit then parseDigitsAux (10 * acc + digitVal c) cs
    else if c = '_' then
      match cs with
      | [] => none
      | c2 :: _ => if c2.isDigit then parseDigitsAux acc cs else none
    else none

/-- A nonempty digit string (leading character must be a digit). -/
def parseDigits : List Char → Option ℕ
  | [] => none
  | c :: cs => if c.isDigit then parseDigitsAux 0 (c :: cs) else none

/-- Python `int(s)`: strip whitespace, optional sign, decimal digits. -/
def pyInt? (s : List Char) : Option ℤ :=
  match trimChars s with
  | '+' :: rest => (parseDigits rest).map (fun n => (n : ℤ))
  | '-' :: rest => (parseDigits rest).map (fun n => -(n : ℤ))
  | rest => (parseDigits rest).map (fun n => (n : ℤ))

/-- `'<think>' in s and '</think>' in s`. -/
def hasThinkTags (s : List Char) : Bool :=
  containsSub thinkOpen s && containsSub thinkClose s

/-- `'<grounding>' in s and '</grounding>' in s`. -/
def hasGroundTags (s : List Char) : Bool :=
  containsSub groundOpen s && containsSub groundClose s

/-- `check_format` from `video_grounding.py`: tag-presence score plus a
thinking-length quality bonus when both tag pairs are present. -/
def check_format (response_str : List Char) : ℚ :=
  let thinking_quality : ℚ :=
    match findThink response_str with
    | some content => min 1 ((trimChars content).length / 200)
    | none => 0
  if hasThinkTags response_str && hasGroundTags response_str then
    0.6 + 0.4 * thinking_quality
  else if hasThinkTags response_str then 0.3
  else if hasGroundTags response_str then 0.5
  else 0

/-- `evaluate_grounding` from `video_grounding.py`: grade predicted
(layer, segment) strings against the ground-truth ones; any missing or
non-integer field yields `0`. -/
def evaluate_grounding (pred_parts gt_parts : List (List Char)) : ℚ :=
  match (pred_parts.get? 0).bind pyInt?, (pred_parts.get? 1).bind pyInt?,
        (gt_parts.get? 0).bind pyInt?, (gt_parts.get? 1).bind pyInt? with
  | some pred_layer, some pred_segment, some gt_layer, some gt_segment =>
    if pred_layer = gt_layer ∧ pred_segment = gt_segment then 1
    else if pred_layer = gt_layer then
      let num_segments : ℚ := (2 : ℚ) ^ gt_layer
      let segment_distance : ℚ :=
        min |(pred_segment : ℚ) - (gt_segment : ℚ)|
            (num_segments - |(pred_segment : ℚ) - (gt_segment : ℚ)|)
      let segment_score := max 0 (1 - segment_distance / (num_segments / 2))
      0.8 * segment_score
    else
      let layer_diff : ℚ := |(pred_layer : ℚ) - (gt_layer : ℚ)|
      let layer_score := max 0 (1 - layer_diff / 4)
      0.4 * layer_score
  | _, _, _, _ => 0

/-- `evaluate_sampling_rate` from `video_grounding.py`: plausibility buckets
for the integer sampling rate, `0` for a non-integer string. -/
def evaluate_sampling_rate (sampling_rate_str : List Char) : ℚ :=
  match pyInt? sampling_rate_str with
  | some rate =>
    if rate ≤ 0 then 0
    else if rate ≤ 5 then 1
    else if rate ≤ 10 then 0.8
    else if rate ≤ 30 then 0.5
    else 0.2
  | none => 0

/-- `video_grounding` from `video_grounding.py`: top-level reward aggregator. -/
def video_grounding (predict_str ground_truth : List Char) : ℚ :=
  let format_score := check_format predict_str
  if format_score = 0 then 0
  else
    match findGrounding predict_str, findGrounding ground_truth with
    | some pm, some gm =>
      let pred_parts := splitParts pm
      let gt_parts := splitParts gm
      if pred_parts.length = 3 ∧ gt_parts.length = 3 then
        0.3 * format_score + 0.5 * evaluate_grounding pred_parts gt_parts +
          0.2 * evaluate_sampling_rate (pred_parts.getD 2 [])
      else 0.2 * format_score
    | _, _ => 0.1 * format_score

/-- Candidate `(layer, segment_id)` pairs in the iteration order of
`compute_layer_segment`: layer `0..4` ascending, segment ascending. -/
def candidates : List (ℕ × ℕ) :=
  (List.range 5).flatMap fun layer => (List.range (2 ^ layer)).map fun seg => (layer, seg)

/-- `segment_start = segment_id * segment_duration` with
`segment_duration = video_duration_sec / 2^layer`. -/
def segStart (dsec : ℚ) (layer seg : ℕ) : ℚ := (seg : ℚ) * (dsec / (2 : ℚ) ^ layer)

/-- `segment_end = (segment_id + 1) * segment_duration`. -/
def segEnd (dsec : ℚ) (layer seg : ℕ) : ℚ := ((seg : ℚ) + 1) * (dsec / (2 : ℚ) ^ layer)

/-- One iteration of the `compute_layer_segment` loop body: state is
`(best_layer, best_segment, best_iou)`. -/
def clsStep (s e dsec : ℚ) (st : ℕ × ℕ × ℚ) (c : ℕ × ℕ) : ℕ × ℕ × ℚ :=
  let ss := segStart dsec c.1 c.2
  let se := segEnd dsec c.1 c.2
  let istart := max s ss
  let iend := min e se
  if istart < iend then
    let intersection := iend - istart
    let union := max e se - min s ss
    let iou := intersection / union
    if st.2.2 < iou ∨ (0.7 ≤ iou ∧ st.1 < c.1) then (c.1, c.2, iou) else st
  else st

/-- `compute_layer_segment` from `dataset_prep.py`. -/
def compute_layer_segment (start_time end_time video_duration_min : ℚ) : ℕ × ℕ :=
  let dsec := video_duration_min * 60
  let r := candidates.foldl (clsStep start_time end_time dsec) (0, 0, 0)
  (r.1, r.2.1)

/-! Specification-side model of the ground-truth resolver.

These definitions follow the specification's words for `compute_layer_segment`
(the candidate IoU is "intersection/union, zero when there is no overlap",
with the intersection clamped at `0`), to be compared with the source
embedding above. -/

/-- IoU of `[s, e]` against a candidate segment, as the specification words it:
`intersection = max(0, min(end, seg_end) - max(start, seg_start))`,
`union = max(end, seg_end) - min(start, seg_start)`, `iou = intersection/union`
(zero when there is no overlap, since the clamped intersection is then `0`). -/
def iouOf (s e dsec : ℚ) (c : ℕ × ℕ) : ℚ :=
  max 0 (min e (segEnd dsec c.1 c.2) - max s (segStart dsec c.1 c.2)) /
    (max e (segEnd dsec c.1 c.2) - min s (segStart dsec c.1 c.2))

/-- Specification-side loop body: replace the best-so-far exactly when the
candidate IoU strictly exceeds the best IoU, or when it is at least `0.7` and
the candidate layer is strictly greater than the best layer. -/
def clsStepSpec (s e dsec : ℚ) (st : ℕ × ℕ × ℚ) (c : ℕ × ℕ) : ℕ × ℕ × ℚ :=
  if st.2.2 < iouOf s e dsec c ∨ (0.7 ≤ iouOf s e dsec c ∧ st.1 < c.1) then
    (c.1, c.2, iouOf s e dsec c)
  else st

/-- Specification-side candidate order: every layer `0..4` ascending, and
within a layer every segment `0..2^layer - 1` ascending. -/
def candidatesSpec : List (ℕ × ℕ) :=
  (List.range 5).flatMap fun layer => (List.range (2 ^ layer)).map fun seg => (layer, seg)

/-- Specification-side resolver: final best-so-far of the scan. -/
def compute_layer_segment_spec (start_time end_time video_duration_min : ℚ) : ℕ × ℕ :=
  let r := candidatesSpec.foldl
    (clsStepSpec start_time end_time (video_duration_min * 60)) (0, 0, 0)
  (r.1, r.2.1)

/-! Helper evaluation lemmas, shared by several developments below. -/

lemma cf_both (s c : List Char) (ht : hasThinkTags s = true)
    (hg : hasGroundTags s = true) (hf : findThink s = some c) :
    check_format s = 0.6 + 0.4 * min 1 (((trimChars c).length : ℚ) / 200) := by
  simp [check_format, ht, hg, hf]

lemma cf_think_only (s : List Char) (ht : hasThinkTags s = true)
    (hg : hasGroundTags s = false) : check_format s = 0.3 := by
  simp [check_format, ht, hg]

lemma cf_ground_only (s : List Char) (ht : hasThinkTags s = false)
    (hg : hasGroundTags s = true) : check_format s = 0.5 := by
  simp [check_format, ht, hg]

lemma cf_neither (s : List Char) (ht : hasThinkTags s = false)
    (hg : hasGroundTags s = false) : check_format s = 0 := by
  simp [check_format, ht, hg]

lemma eg_formula (pp gp : List (List Char)) (pl ps gl gs : ℤ)
    (h1 : (pp.get? 0).bind pyInt? = some pl) (h2 : (pp.get? 1).bind pyInt? = some ps)
    (h3 : (gp.get? 0).bind pyInt? = some gl) (h4 : (gp.get? 1).bind pyInt? = some gs) :
    evaluate_grounding pp gp =
      if pl = gl ∧ ps = gs then 1
      else if pl = gl then
        0.8 * max 0 (1 - min |(ps : ℚ) - (gs : ℚ)| ((2 : ℚ) ^ gl - |(ps : ℚ) - (gs : ℚ)|) /
          ((2 : ℚ) ^ gl / 2))
      else 0.4 * max 0 (1 - |(pl : ℚ) - (gl : ℚ)| / 4) := by
  simp only [evaluate_grounding, h1, h2, h3, h4]

lemma eg_parse_fail (pp gp : List (List Char))
    (h : (pp.get? 0).bind pyInt? = none ∨ (pp.get? 1).bind pyInt? = none ∨
      (gp.get? 0).bind pyInt? = none ∨ (gp.get? 1).bind pyInt? = none) :
    evaluate_grounding pp gp = 0 := by
  cases hA : (pp.get? 0).bind pyInt? with
  | none => simp only [evaluate_grounding, hA]
  | some pl =>
    cases hB : (pp.get? 1).bind pyInt? with
    | none => simp only [evaluate_grounding, hA, hB]
    | some ps =>
      cases hC : (gp.get? 0).bind pyInt? with
      | none => simp only [evaluate_grounding, hA, hB, hC]
      | some gl =>
        cases hD : (gp.get? 1).bind pyInt? with
        | none => simp only [evaluate_grounding, hA, hB, hC, hD]
        | some gs =>
          rw [hA, hB, hC, hD] at h
          simp at h

lemma esr_some (s : List Char) (r : ℤ) (h : pyInt? s = some r) :
    evaluate_sampling_rate s =
      if r ≤ 0 then 0 else if r ≤ 5 then 1 else if r ≤ 10 then 0.8
      else if r ≤ 30 then 0.5 else 0.2 := by
  simp [evaluate_sampling_rate, h]

lemma esr_none (s : List Char) (h : pyInt? s = none) :
    evaluate_sampling_rate s = 0 := by
  simp [evaluate_sampling_rate, h]

lemma vg_full (p g pc gc : List Char) (hne : check_format p ≠ 0)
    (hp : findGrounding p = some pc) (hg : findGrounding g = some gc)
    (hlp : (splitParts pc).length = 3) (hlg : (splitParts gc).length = 3) :
    video_grounding p g =
      0.3 * check_format p + 0.5 * evaluate_grounding (splitParts pc) (splitParts gc) +
        0.2 * evaluate_sampling_rate ((splitParts pc).getD 2 []) := by
  simp [video_grounding, hne, hp, hg, hlp, hlg]

lemma vg_bad_count (p g pc gc : List Char) (hne : check_format p ≠ 0)
    (hp : findGrounding p = some pc) (hg : findGrounding g = some gc)
    (hl : ¬((splitParts pc).length = 3 ∧ (splitParts gc).length = 3)) :
    video_grounding p g = 0.2 * check_format p := by
  simp only [video_grounding, hp, hg]
  rw [if_neg hne, if_neg hl]

lemma vg_no_extract (p g : List Char) (h : findGrounding p = none) :
    video_grounding p g = 0.1 * check_format p := by
  by_cases hf : check_format p = 0
  · simp [video_grounding, hf]
  · simp [video_grounding, hf, h]

lemma clsStep_eq_spec (s e dsec : ℚ) (st : ℕ × ℕ × ℚ) (c : ℕ × ℕ)
    (h : 0 ≤ st.2.2) : clsStepSpec s e dsec st c = clsStep s e dsec st c := by
  simp only [clsStep, clsStepSpec, iouOf]
  by_cases hlt : max s (segStart dsec c.1 c.2) < min e (segEnd dsec c.1 c.2)
  · rw [if_pos hlt,
      max_eq_right (by linarith :
        (0 : ℚ) ≤ min e (segEnd dsec c.1 c.2) - max s (segStart dsec c.1 c.2))]
  · rw [if_neg hlt,
      max_eq_left (by push_neg at hlt; linarith :
        min e (segEnd dsec c.1 c.2) - max s (segStart dsec c.1 c.2) ≤ (0 : ℚ)),
      zero_div, if_neg]
    rintro (h1 | ⟨h2, _⟩)
    · linarith
    · norm_num at h2

lemma clsStep_nonneg (s e dsec : ℚ) (st : ℕ × ℕ × ℚ) (c : ℕ × ℕ)
    (h : 0 ≤ st.2.2) : 0 ≤ (clsStep s e dsec st c).2.2 := by
  simp only [clsStep]
  by_cases hlt : max s (segStart dsec c.1 c.2) < min e (segEnd dsec c.1 c.2)
  · rw [if_pos hlt]
    by_cases hu : st.2.2 <
        (min e (segEnd dsec c.1 c.2) - max s (segStart dsec c.1 c.2)) /
          (max e (segEnd dsec c.1 c.2) - min s (segStart dsec c.1 c.2)) ∨
        (0.7 ≤ (min e (segEnd dsec c.1 c.2) - max s (segStart dsec c.1 c.2)) /
          (max e (segEnd dsec c.1 c.2) - min s (segStart dsec c.1 c.2)) ∧ st.1 < c.1)
    · rw [if_pos hu]
      have h1 : min e (segEnd dsec c.1 c.2) ≤ max e (segEnd dsec c.1 c.2) := min_le_max
      have h2 : min s (segStart dsec c.1 c.2) ≤ max s (segStart dsec c.1 c.2) := min_le_max
      exact div_nonneg (by linarith) (by linarith)
    · rw [if_neg hu]; exact h
  · rw [if_neg hlt]; exact h

lemma foldl_clsStep_eq (s e dsec : ℚ) :
    ∀ (l : List (ℕ × ℕ)) (st : ℕ × ℕ × ℚ), 0 ≤ st.2.2 →
      l.foldl (clsStepSpec s e dsec) st = l.foldl (clsStep s e dsec) st
  | [], _, _ => rfl
  | c :: cs, st, h => by
    rw [List.foldl_cons, List.foldl_cons, clsStep_eq_spec s e dsec st c h]
    exact foldl_clsStep_eq s e dsec cs _ (clsStep_nonneg s e dsec st c h)

lemma foldl_clsStep_id (s e dsec : ℚ) :
    ∀ (l : List (ℕ × ℕ)) (st : ℕ × ℕ × ℚ),
      (∀ c ∈ l, min e (segEnd dsec c.1 c.2) ≤ max s (segStart dsec c.1 c.2)) →
      l.foldl (clsStep s e dsec) st = st
  | [], _, _ => rfl
  | c :: cs, st, h => by
    rw [List.foldl_cons]
    have hstep : clsStep s e dsec st c = st := by
      simp only [clsStep]
      rw [if_neg (not_lt.mpr (h c (List.mem_cons_self c cs)))]
    rw [hstep]
    exact foldl_clsStep_id s e dsec cs st fun d hd => h d (List.mem_cons_of_mem c hd)

lemma candidates_bounds : ∀ c ∈ candidates, c.1 ≤ 4 ∧ c.2 < 2 ^ c.1 := by decide

/-- Prediction of the claimed end-to-end scoring example. -/
def c4pred : List Char := "<think>short</think><grounding>2, 1, 3</grounding>".toList

/-- Ground truth of the claimed end-to-end scoring example. -/
def c4gt : List Char := "<grounding>2, 1, 0</grounding>".toList

/-- Prediction whose segment field is out of range for its layer. -/
def c1pred : List Char := "<grounding>0, 5, 1</grounding>".toList

/-- Ground truth paired with `c1pred`. -/
def c1gt : List Char := "<grounding>0, 0, 0</grounding>".toList

/-- A text containing both grounding markers but with empty tag content. -/
def c10pred : List Char := "<grounding></grounding>".toList

/-- Ground truth paired with `c10pred`. -/
def c10gt : List Char := "<grounding>2, 1, 0</grounding>".toList

end VideoGrounding

namespace VideoGrounding

/-- C2: `compute_layer_segment` scans layers `0..4` ascending, segments
ascending, scores each candidate by the clamped-intersection-over-union
formula (zero on no overlap), replaces the best-so-far exactly when the
candidate IoU strictly exceeds the best or when it is at least `0.7` with a
strictly greater layer, and returns the final best-so-far pair. -/
theorem compute_layer_segment_eq_spec (s e d : ℚ) :
    compute_layer_segment s e d = compute_layer_segment_spec s e d := by
  have hc : candidatesSpec = candidates := rfl
  simp only [compute_layer_segment, compute_layer_segment_spec, hc]
  rw [foldl_clsStep_eq s e (d * 60) candidates (0, 0, 0) (by norm_num)]

/-- C8: when no candidate segment at any layer has strictly positive
intersection with the interval — in particular for any degenerate interval
with `end ≤ start`, and for duration `0` — `compute_layer_segment` returns
`(0, 0)`. -/
theorem compute_layer_segment_default (s e d : ℚ)
    (h : e ≤ s ∨ d = 0 ∨ ∀ layer ≤ 4, ∀ seg < 2 ^ layer,
      min e (segEnd (d * 60) layer seg) ≤ max s (segStart (d * 60) layer seg)) :
    compute_layer_segment s e d = (0, 0) := by
  have hall : ∀ c ∈ candidates,
      min e (segEnd (d * 60) c.1 c.2) ≤ max s (segStart (d * 60) c.1 c.2) := by
    rcases h with h | h | h
    · intro c _
      calc min e (segEnd (d * 60) c.1 c.2) ≤ e := min_le_left _ _
        _ ≤ s := h
        _ ≤ max s (segStart (d * 60) c.1 c.2) := le_max_left _ _
    · intro c _
      subst h
      have h1 : (0 : ℚ) * 60 = 0 := by norm_num
      rw [h1, show segEnd 0 c.1 c.2 = 0 from by simp [segEnd],
        show segStart 0 c.1 c.2 = 0 from by simp [segStart]]
      exact le_trans (min_le_right _ _) (le_max_right _ _)
    · intro c hc
      exact h c.1 (candidates_bounds c hc).1 c.2 (candidates_bounds c hc).2
  simp only [compute_layer_segment]
  rw [foldl_clsStep_id s e (d * 60) candidates (0, 0, 0) hall]

/-- C8 witness: the degenerate interval `[5, 3]` over a 7-minute video is
mapped to `(0, 0)`. -/
theorem compute_layer_segment_default_witness :
    compute_layer_segment 5 3 7 = (0, 0) :=
  compute_layer_segment_default 5 3 7 (Or.inl (by norm_num))

/-- C9: whenever the loop guard of `compute_layer_segment` holds for a
candidate (`intersection_end > intersection_start`), the intersection is
strictly positive, the union is at least the intersection, and hence the
denominator `union` of the only division is strictly positive. -/
theorem segment_overlap_union_pos (s e dsec : ℚ) (layer seg : ℕ)
    (h : max s (segStart dsec layer seg) < min e (segEnd dsec layer seg)) :
    0 < min e (segEnd dsec layer seg) - max s (segStart dsec layer seg) ∧
      min e (segEnd dsec layer seg) - max s (segStart dsec layer seg) ≤
        max e (segEnd dsec layer seg) - min s (segStart dsec layer seg) ∧
      0 < max e (segEnd dsec layer seg) - min s (segStart dsec layer seg) := by
  have h1 : min e (segEnd dsec layer seg) ≤ max e (segEnd dsec layer seg) := min_le_max
  have h2 : min s (segStart dsec layer seg) ≤ max s (segStart dsec layer seg) := min_le_max
  exact ⟨by linarith, by linarith, by linarith⟩

/-- C9 witness: the interval `[0, 30]` against layer 1, segment 0 of a
60-second video. -/
theorem segment_overlap_union_pos_witness :
    (0 : ℚ) < min 30 (segEnd 60 1 0) - max 0 (segStart 60 1 0) ∧
      min 30 (segEnd 60 1 0) - max 0 (segStart 60 1 0) ≤
        max 30 (segEnd 60 1 0) - min 0 (segStart 60 1 0) ∧
      (0 : ℚ) < max 30 (segEnd 60 1 0) - min 0 (segStart 60 1 0) :=
  segment_overlap_union_pos 0 30 60 1 0 (by norm_num [segStart, segEnd])

/-- C5: `check_format` returns `0.6 + 0.4 * min 1 (L/200)` when both tag
pairs are present (`L` the trimmed extracted thinking length, result in
`[0.6, 1]`), `0.3` with only the think tags, `0.5` with only the grounding
tags, and `0` with neither. -/
theorem check_format_spec (s : List Char) :
    (∀ c, hasThinkTags s = true → hasGroundTags s = true → findThink s = some c →
      check_format s = 0.6 + 0.4 * min 1 (((trimChars c).length : ℚ) / 200) ∧
        0.6 ≤ check_format s ∧ check_format s ≤ 1) ∧
    (hasThinkTags s = true → hasGroundTags s = false → check_format s = 0.3) ∧
    (hasThinkTags s = false → hasGroundTags s = true → check_format s = 0.5) ∧
    (hasThinkTags s = false → hasGroundTags s = false → check_format s = 0) := by
  refine ⟨?_, cf_think_only s, cf_ground_only s, cf_neither s⟩
  intro c ht hg hf
  have heq := cf_both s c ht hg hf
  have h0 : (0 : ℚ) ≤ min 1 (((trimChars c).length : ℚ) / 200) :=
    le_min (by norm_num) (by positivity)
  have h1 : min (1 : ℚ) (((trimChars c).length : ℚ) / 200) ≤ 1 := min_le_left _ _
  exact ⟨heq, by rw [heq]; linarith, by rw [heq]; linarith⟩

/-- C5 witness: a response with only the grounding tags scores `0.5`. -/
theorem check_format_spec_witness :
    check_format "<grounding>1, 2, 3</grounding>".toList = 0.5 :=
  (check_format_spec "<grounding>1, 2, 3</grounding>".toList).2.2.1 (by decide) (by decide)

/-- C6: `evaluate_sampling_rate` buckets the parsed integer rate into
`0, 1, 0.8, 0.5, 0.2` at the documented thresholds, returns `0` on a
non-integer string, and matches all the claimed boundary values. -/
theorem evaluate_sampling_rate_spec :
    (∀ (s : List Char) (r : ℤ), pyInt? s = some r →
      evaluate_sampling_rate s = if r ≤ 0 then 0 else if r ≤ 5 then 1
        else if r ≤ 10 then 0.8 else if r ≤ 30 then 0.5 else 0.2) ∧
    (∀ s : List Char, pyInt? s = none → evaluate_sampling_rate s = 0) ∧
    evaluate_sampling_rate "5".toList = 1 ∧ evaluate_sampling_rate "6".toList = 0.8 ∧
    evaluate_sampling_rate "10".toList = 0.8 ∧ evaluate_sampling_rate "11".toList = 0.5 ∧
    evaluate_sampling_rate "30".toList = 0.5 ∧ evaluate_sampling_rate "31".toList = 0.2 ∧
    evaluate_sampling_rate "0".toList = 0 ∧ evaluate_sampling_rate "-1".toList = 0 := by
  refine ⟨esr_some, esr_none, ?_, ?_, ?_, ?_, ?_, ?_, ?_, ?_⟩
  · rw [esr_some "5".toList 5 (by decide)]; norm_num
  · rw [esr_some "6".toList 6 (by decide)]; norm_num
  · rw [esr_some "10".toList 10 (by decide)]; norm_num
  · rw [esr_some "11".toList 11 (by decide)]; norm_num
  · rw [esr_some "30".toList 30 (by decide)]; norm_num
  · rw [esr_some "31".toList 31 (by decide)]; norm_num
  · rw [esr_some "0".toList 0 (by decide)]; norm_num
  · rw [esr_some "-1".toList (-1) (by decide)]; norm_num

/-- C6 witness: a rate of `42` (with surrounding whitespace) scores `0.2`. -/
theorem evaluate_sampling_rate_spec_witness :
    evaluate_sampling_rate "  42  ".toList = 0.2 := by
  rw [evaluate_sampling_rate_spec.1 "  42  ".toList 42 (by decide)]; norm_num

/-- C3: with all four layer/segment fields parsing as integers,
`evaluate_grounding` returns `1` on an exact match, the circular
segment-distance formula on a same-layer miss, the layer-difference formula
otherwise, and `0` when any field fails to parse. -/
theorem evaluate_grounding_spec :
    (∀ (pp gp : List (List Char)) (pl ps gl gs : ℤ),
      (pp.get? 0).bind pyInt? = some pl → (pp.get? 1).bind pyInt? = some ps →
      (gp.get? 0).bind pyInt? = some gl → (gp.get? 1).bind pyInt? = some gs →
      evaluate_grounding pp gp =
        if pl = gl ∧ ps = gs then 1
        else if pl = gl then
          0.8 * max 0 (1 - min |(ps : ℚ) - (gs : ℚ)| ((2 : ℚ) ^ gl - |(ps : ℚ) - (gs : ℚ)|) /
            ((2 : ℚ) ^ gl / 2))
        else 0.4 * max 0 (1 - |(pl : ℚ) - (gl : ℚ)| / 4)) ∧
    (∀ pp gp : List (List Char),
      ((pp.get? 0).bind pyInt? = none ∨ (pp.get? 1).bind pyInt? = none ∨
        (gp.get? 0).bind pyInt? = none ∨ (gp.get? 1).bind pyInt? = none) →
      evaluate_grounding pp gp = 0) :=
  ⟨eg_formula, eg_parse_fail⟩

/-- C3 witness: an exact `(2, 1)` match scores `1`. -/
theorem evaluate_grounding_spec_witness :
    evaluate_grounding ["2".toList, "1".toList, "3".toList]
      ["2".toList, "1".toList, "0".toList] = 1 := by
  rw [evaluate_grounding_spec.1 ["2".toList, "1".toList, "3".toList]
    ["2".toList, "1".toList, "0".toList] 2 1 2 1
    (by decide) (by decide) (by decide) (by decide)]
  norm_num

/-- C4: when the format score is positive, both texts have extractable
grounding content, and both contents split into exactly 3 trimmed parts,
`video_grounding` returns `0.3*format + 0.5*grounding + 0.2*sampling`; in
particular the claimed end-to-end example scores exactly `0.883`. -/
theorem video_grounding_weighted_formula :
    (∀ (p g pc gc : List Char), 0 < check_format p →
      findGrounding p = some pc → findGrounding g = some gc →
      (splitParts pc).length = 3 → (splitParts gc).length = 3 →
      video_grounding p g =
        0.3 * check_format p + 0.5 * evaluate_grounding (splitParts pc) (splitParts gc) +
          0.2 * evaluate_sampling_rate ((splitParts pc).getD 2 [])) ∧
    video_grounding c4pred c4gt = 0.883 := by
  constructor
  · intro p g pc gc hpos hp hg hlp hlg
    exact vg_full p g pc gc hpos.ne' hp hg hlp hlg
  · have hcf : check_format c4pred = 0.61 := by
      rw [cf_both c4pred "short".toList (by decide) (by decide) (by decide),
        show (trimChars "short".toList).length = 5 from by decide]
      norm_num
    have hne : check_format c4pred ≠ 0 := by rw [hcf]; norm_num
    rw [vg_full c4pred c4gt "2, 1, 3".toList "2, 1, 0".toList hne
      (by decide) (by decide) (by decide) (by decide), hcf,
      show splitParts "2, 1, 3".toList = ["2".toList, "1".toList, "3".toList] from by decide,
      show splitParts "2, 1, 0".toList = ["2".toList, "1".toList, "0".toList] from by decide,
      eg_formula ["2".toList, "1".toList, "3".toList] ["2".toList, "1".toList, "0".toList]
        2 1 2 1 (by decide) (by decide) (by decide) (by decide),
      show (["2".toList, "1".toList, "3".toList].getD 2 []) = "3".toList from by decide,
      esr_some "3".toList 3 (by decide)]
    norm_num

/-- C4 witness: a well-formed self-match takes the full weighted formula. -/
theorem video_grounding_weighted_formula_witness :
    video_grounding "<grounding>1, 0, 2</grounding>".toList
      "<grounding>1, 0, 2</grounding>".toList =
    0.3 * check_format "<grounding>1, 0, 2</grounding>".toList +
      0.5 * evaluate_grounding (splitParts "1, 0, 2".toList) (splitParts "1, 0, 2".toList) +
      0.2 * evaluate_sampling_rate ((splitParts "1, 0, 2".toList).getD 2 []) :=
  video_grounding_weighted_formula.1 "<grounding>1, 0, 2</grounding>".toList
    "<grounding>1, 0, 2</grounding>".toList "1, 0, 2".toList "1, 0, 2".toList
    (by rw [cf_ground_only _ (by decide) (by decide)]; norm_num)
    (by decide) (by decide) (by decide) (by decide)

/-- C7: when the format score is positive and both grounding contents are
extractable but either does not split into exactly 3 trimmed parts,
`video_grounding` returns exactly `0.2 * format_score`. -/
theorem video_grounding_bad_field_count (p g pc gc : List Char)
    (hpos : 0 < check_format p)
    (hp : findGrounding p = some pc) (hg : findGrounding g = some gc)
    (hl : ¬((splitParts pc).length = 3 ∧ (splitParts gc).length = 3)) :
    video_grounding p g = 0.2 * check_format p :=
  vg_bad_count p g pc gc hpos.ne' hp hg hl

/-- C7 witness: a two-field prediction `"2, 1"` scores `0.2 * format_score`. -/
theorem video_grounding_bad_field_count_witness :
    video_grounding "<grounding>2, 1</grounding>".toList
      "<grounding>2, 1, 0</grounding>".toList =
    0.2 * check_format "<grounding>2, 1</grounding>".toList :=
  video_grounding_bad_field_count "<grounding>2, 1</grounding>".toList
    "<grounding>2, 1, 0</grounding>".toList "2, 1".toList "2, 1, 0".toList
    (by rw [cf_ground_only _ (by decide) (by decide)]; norm_num)
    (by decide) (by decide) (by decide)

/-- C10: a text with no substring matching `<grounding>[^<]+</grounding>` has
its grounding content treated as absent (`0.1 * format_score`) even when both
tag markers are present; in particular `<grounding></grounding>` gets format
score `0.5` yet the pair scores `0.1 * 0.5 = 0.05`. -/
theorem video_grounding_empty_grounding_content :
    (∀ p g : List Char, findGrounding p = none →
      video_grounding p g = 0.1 * check_format p) ∧
    check_format c10pred = 0.5 ∧ findGrounding c10pred = none ∧
    video_grounding c10pred c10gt = 0.05 := by
  have hcf : check_format c10pred = 0.5 := cf_ground_only _ (by decide) (by decide)
  refine ⟨vg_no_extract, hcf, by decide, ?_⟩
  rw [vg_no_extract _ _ (by decide), hcf]
  norm_num

/-- C10 witness: unextractable grounding content degrades to
`0.1 * format_score`. -/
theorem video_grounding_empty_grounding_content_witness :
    video_grounding "<grounding></grounding>x".toList "".toList =
      0.1 * check_format "<grounding></grounding>x".toList :=
  video_grounding_empty_grounding_content.1 "<grounding></grounding>x".toList
    "".toList (by decide)

/-- C1 (refuting the unconditional `[0, 1]` bound): with an out-of-range
predicted segment the scorer returns `3.95 > 1`, contradicting the
documented range. -/
theorem video_grounding_exceeds_one :
    video_grounding c1pred c1gt = 3.95 ∧ 1 < video_grounding c1pred c1gt := by
  have hcf : check_format c1pred = 0.5 := cf_ground_only _ (by decide) (by decide)
  have hne : check_format c1pred ≠ 0 := by rw [hcf]; norm_num
  have hvg : video_grounding c1pred c1gt = 3.95 := by
    rw [vg_full c1pred c1gt "0, 5, 1".toList "0, 0, 0".toList hne
      (by decide) (by decide) (by decide) (by decide), hcf,
      show splitParts "0, 5, 1".toList = ["0".toList, "5".toList, "1".toList] from by decide,
      show splitParts "0, 0, 0".toList = ["0".toList, "0".toList, "0".toList] from by decide,
      eg_formula ["0".toList, "5".toList, "1".toList] ["0".toList, "0".toList, "0".toList]
        0 5 0 0 (by decide) (by decide) (by decide) (by decide),
      show (["0".toList, "5".toList, "1".toList].getD 2 []) = "1".toList from by decide,
      esr_some "1".toList 1 (by decide)]
    norm_num
  exact ⟨hvg, by rw [hvg]; norm_num⟩
